import Mathlib

/-!
Verification development for the PowerDNS provider of dnscontrol
(`providers/powerdns/rest.go`).

The Go file is shallowly embedded here:

* The wire data model (`PdnsComments`, `PdnsRecord`, `PdnsRRSet`, `PdnsZone`)
  is translated field by field, with Go zero values as Lean default field
  values.  Go's `encoding/json` serialization of the PATCH payload, with its
  `omitempty` struct tags, is modelled by an explicit `Json` tree builder.
* HTTP calls (`GetZone`, `UpdateZoneRRSets`) are embedded as pure functions of
  the backend's observable outcome (`HttpOutcome`): a network error, or a
  response with a status code, a status text and a body.  Go errors become
  `Except String`.
* The external packages `models` and `providers/diff` of dnscontrol are not
  part of this repository's sources; the definitions that stand in for them
  (`RecordConfig`, `relativize`, `absolutize`, `setLabelFromFQDN`,
  `Correlation`, `Correlation.describe`, `incrementalDiff`) are modelled from
  the specification and are marked as such in their doc comments.
* A `models.Correction` is a message plus a closure `F`.  In the source every
  closure built by `buildCorrection` consists of exactly one statement,
  `return p.apiClient.UpdateZoneRRSets(dc.Name, sets)`, so the closure is
  embedded as the data of that single call (`Correction.call`) together with
  the evaluation function `Correction.run` that applies a mutator to it.
-/

/-- Go constant `ChangeTypeReplace`. -/
def ChangeTypeReplace : String := "REPLACE"

/-- Go constant `ChangeTypeDelete`. -/
def ChangeTypeDelete : String := "DELETE"

/-- Go struct `PdnsComments` (all fields `omitempty`). -/
structure PdnsComments where
  content : String := ""
  account : String := ""
  modifiedAt : Nat := 0
deriving Repr, DecidableEq

/-- Go struct `PdnsRecord`: `Content` is `omitempty`, `Disabled` and
`SetPr` (json key `set-ptr`) are always serialized. -/
structure PdnsRecord where
  content : String := ""
  disabled : Bool := false
  setPr : Bool := false
deriving Repr, DecidableEq

/-- Go struct `PdnsRRSet`; every field carries `omitempty`. -/
structure PdnsRRSet where
  name : String := ""
  type : String := ""
  ttl : Nat := 0
  changeType : String := ""
  records : List PdnsRecord := []
  comments : List PdnsComments := []
deriving Repr, DecidableEq

/-- Go struct `PdnsZone` (field for field; booleans are always serialized,
the rest is `omitempty`). -/
structure PdnsZone where
  id : String := ""
  name : String := ""
  type : String := ""
  url : String := ""
  kind : String := ""
  rrsets : List PdnsRRSet := []
  serial : Nat := 0
  notifiedSerial : Nat := 0
  editedSerial : Nat := 0
  masters : List String := []
  dnsSec : Bool := false
  nsec3param : String := ""
  nsec3narrow : Bool := false
  presigned : Bool := false
  soaEdit : String := ""
  soaEditApi : String := ""
  apiRectify : Bool := false
  zone : String := ""
  account : String := ""
  nameservers : List String := []
  masterTsigKeyIds : List String := []
  slaveTsigKeyIds : List String := []
deriving Repr, DecidableEq

/-- JSON values, used to model what `encoding/json.Marshal` emits. -/
inductive Json where
  | str (s : String)
  | num (n : Nat)
  | bool (b : Bool)
  | arr (elems : List Json)
  | obj (fields : List (String × Json))

/-- Serialization of a `PdnsRecord` under its struct tags: `content` is
dropped when empty (`omitempty`), `disabled` and `set-ptr` always appear. -/
def serializeRecord (r : PdnsRecord) : Json :=
  Json.obj ((if r.content = "" then [] else [("content", Json.str r.content)]) ++
    [("disabled", Json.bool r.disabled), ("set-ptr", Json.bool r.setPr)])

/-- Serialization of a `PdnsComments` under its struct tags (all `omitempty`). -/
def serializeComments (c : PdnsComments) : Json :=
  Json.obj ((if c.content = "" then [] else [("content", Json.str c.content)]) ++
    (if c.account = "" then [] else [("account", Json.str c.account)]) ++
    (if c.modifiedAt = 0 then [] else [("modified_at", Json.num c.modifiedAt)]))

/-- Field list of the serialized `PdnsRRSet`: every field has `omitempty`, so
a field holding its Go zero value (empty string, 0, empty slice) is omitted. -/
def serializeRRSetFields (s : PdnsRRSet) : List (String × Json) :=
  (if s.name = "" then [] else [("name", Json.str s.name)]) ++
  (if s.type = "" then [] else [("type", Json.str s.type)]) ++
  (if s.ttl = 0 then [] else [("ttl", Json.num s.ttl)]) ++
  (if s.changeType = "" then [] else [("changetype", Json.str s.changeType)]) ++
  (if s.records = [] then [] else
    [("records", Json.arr (s.records.map serializeRecord))]) ++
  (if s.comments = [] then [] else
    [("comments", Json.arr (s.comments.map serializeComments))])

/-- Serialization of a `PdnsRRSet`. -/
def serializeRRSet (s : PdnsRRSet) : Json :=
  Json.obj (serializeRRSetFields s)

/-- Serialization of the Go struct `RRSetsUpdate`, the body of the PATCH
request issued by `UpdateZoneRRSets` (its single field `rrsets` has no
`omitempty`, so it is always present). -/
def serializeRRSetsUpdate (rrSets : List PdnsRRSet) : Json :=
  Json.obj [("rrsets", Json.arr (rrSets.map serializeRRSet))]

/-- Body of a GET-zone response as the embedding observes it: either it
decodes to a `PdnsZone`, or `json.Unmarshal` / `ioutil.ReadAll` fails with
some error text. -/
inductive ZoneBody where
  | wellFormed (z : PdnsZone)
  | malformed (decodeErr : String)
deriving Repr, DecidableEq

/-- Observable outcome of one HTTP round trip: either `http.Client.Do`
fails (network error), or the backend answers with a status code, the
status text Go exposes as `response.Status`, and a body. -/
inductive HttpOutcome where
  | netErr (msg : String)
  | resp (status : Nat) (statusText : String) (body : ZoneBody)
deriving Repr, DecidableEq

/-- Error message of `GetZone` for a status other than 200 and 404. -/
def getZoneFailMsg (statusText : String) : String :=
  "failed to get DNS zone: " ++ statusText

/-- Error message of `GetZone` for status 404. -/
def getZoneNotFoundMsg (zoneId : String) : String :=
  "domain " ++ zoneId ++ " does not exists in DNS zone"

/-- Embedding of `PowerDnsApiClient.GetZone`: a network error is returned as
is; a status that is neither 200 nor 404 yields the generic failure message
with the response's status text; 404 yields the specific not-found message
naming the zone; on 200 the body is decoded, a decode failure is an error and
otherwise the zone is returned. -/
def getZone (zoneId : String) (out : HttpOutcome) : Except String PdnsZone :=
  match out with
  | HttpOutcome.netErr e => Except.error e
  | HttpOutcome.resp status statusText body =>
    if status ≠ 200 ∧ status ≠ 404 then
      Except.error (getZoneFailMsg statusText)
    else if status = 404 then
      Except.error (getZoneNotFoundMsg zoneId)
    else
      match body with
      | ZoneBody.malformed e => Except.error e
      | ZoneBody.wellFormed z => Except.ok z

/-- Error message of `UpdateZoneRRSets` for a status other than 204. -/
def updateFailMsg (statusText : String) : String :=
  "failed to update DNS records " ++ statusText

/-- Embedding of `PowerDnsApiClient.UpdateZoneRRSets`: the request body is
`serializeRRSetsUpdate rrSets`; a network error is returned as is; any status
other than 204 No Content is an error carrying the response's status text;
204 is the only success. -/
def updateZoneRRSets (zoneId : String) (rrSets : List PdnsRRSet)
    (out : HttpOutcome) : Except String Unit :=
  match zoneId, rrSets, out with
  | _, _, HttpOutcome.netErr e => Except.error e
  | _, _, HttpOutcome.resp status statusText _ =>
    if status ≠ 204 then Except.error (updateFailMsg statusText)
    else Except.ok ()

/-- Modelled from the spec: the canonical record model of the external
`models.RecordConfig` (not part of this repository's sources), restricted to
the fields this provider reads: the relative label (`Name`, `"@"` at the
apex), the absolute name without trailing dot (`NameFQDN`), the type token,
the TTL and the target content. -/
structure RecordConfig where
  label : String := ""
  nameFQDN : String := ""
  type : String := ""
  ttl : Nat := 0
  target : String := ""
deriving Repr, DecidableEq

/-- Modelled from the spec: `models.RecordConfig.GetLabelFQDN` (external)
returns the record's absolute name without a trailing dot. -/
def RecordConfig.GetLabelFQDN (rc : RecordConfig) : String :=
  rc.nameFQDN

/-- Modelled from the spec: conversion of an absolute name (no trailing dot)
to the relative label form anchored at the zone base.  The zone itself maps
to the apex label `"@"`; a name ending in `"." ++ zone` maps to the part
before that suffix; a name not within the zone is an error (`none`), not a
silent drop. -/
def relativize (n zone : String) : Option String :=
  if n = zone then some "@"
  else if ("." ++ zone).data.isSuffixOf n.data then
    some (String.mk (n.data.take (n.data.length - ("." ++ zone).data.length)))
  else none

/-- Modelled from the spec: re-absolutization of a relative label against the
zone base (without the wire-boundary trailing dot, which the correction
builder appends separately). -/
def absolutize (label zone : String) : String :=
  if label = "@" then zone else label ++ "." ++ zone

/-- Drops one trailing dot, as the wire form of a name carries one. -/
def stripTrailingDot (s : String) : String :=
  if s.data.getLast? = some '.' then String.mk s.data.dropLast else s

/-- Modelled from the spec: `models.RecordConfig.SetLabelFromFQDN`
(external), which derives the pair (relative label, absolute name) from a
wire-form FQDN and the zone base; a name outside the zone is an error. -/
def setLabelFromFQDN (fqdn zone : String) : Option (String × String) :=
  let n := stripTrailingDot fqdn
  (relativize n zone).map (fun lbl => (lbl, n))

/-- Modelled from the spec: the external differ's `diff.Correlation`, a
paired (existing, desired) or single-sided record difference.  A create has
no existing record, a delete has no desired record. -/
structure Correlation where
  existing : Option RecordConfig := none
  desired : Option RecordConfig := none
deriving Repr, DecidableEq

/-- Modelled from the spec: the external `diff.Correlation.String()`, a
stable human-readable description derived from the correlation, summarizing
name, type and old and new value; used for audit logs, not for logic. -/
def Correlation.describe (c : Correlation) : String :=
  match c.existing, c.desired with
  | none, some d => "CREATE " ++ d.type ++ " " ++ d.GetLabelFQDN ++ " " ++ d.target
  | some e, none => "DELETE " ++ e.type ++ " " ++ e.GetLabelFQDN ++ " " ++ e.target
  | some e, some d =>
    "MODIFY " ++ d.type ++ " " ++ d.GetLabelFQDN ++ ": " ++ e.target ++ " -> " ++ d.target
  | none, none => ""

/-- Embedding of `models.Correction` as built by this provider: the message
`Msg`, and the closure `F`.  In the source every closure built by
`buildCorrection` is the single statement
`return p.apiClient.UpdateZoneRRSets(dc.Name, sets)`, so `F` is embedded as
the data of that one call: the zone name and the rrset slice it passes. -/
structure Correction where
  msg : String
  call : String × List PdnsRRSet
deriving Repr, DecidableEq

/-- Evaluation of a correction's closure against a mutator behaviour: the
closure applies the mutator to its recorded call and returns the mutator's
result unchanged. -/
def Correction.run (mutator : String → List PdnsRRSet → Except String Unit)
    (c : Correction) : Except String Unit :=
  mutator c.call.1 c.call.2

/-- Embedding of `PowerDNSProvider.buildCorrection`.  For action `"create"`
or `"modify"` it builds a single-element REPLACE rrset from the desired
record (name absolutized with a trailing dot, the desired type and TTL, one
record entry with the desired target and disabled false); for any other
action it builds a single-element DELETE rrset from the existing record (no
TTL assigned, so the Go zero value 0 remains).  Dereferencing a missing
record (a nil pointer in Go, a panic) is `none`. -/
def buildCorrection (c : Correlation) (dcName : String) (action : String) :
    Option Correction :=
  if action = "create" ∨ action = "modify" then
    match c.desired with
    | some d => some
      { msg := c.describe
        call := (dcName,
          [{ changeType := ChangeTypeReplace
             name := d.GetLabelFQDN ++ "."
             type := d.type
             records := [{ content := d.target, disabled := false }]
             ttl := d.ttl }]) }
    | none => none
  else
    match c.existing with
    | some e => some
      { msg := c.describe
        call := (dcName,
          [{ changeType := ChangeTypeDelete
             name := e.GetLabelFQDN ++ "."
             type := e.type
             records := [{ content := e.target }] }]) }
    | none => none

/-- Embedding of `PowerDNSProvider.nativeToDomainConfig`: the nested loop
over the native rrsets and their records, appending one canonical record per
native record entry, with the set's type, TTL and (relativized) name
duplicated onto each.  A name that fails to decompose against the zone is an
error (`none`). -/
def nativeToDomainConfig (native : List PdnsRRSet) (zone : String) :
    Option (List RecordConfig) :=
  native.foldlM (fun acc r =>
    r.records.foldlM (fun acc2 rr =>
      (setLabelFromFQDN r.name zone).map (fun p =>
        acc2 ++ [{ label := p.1, nameFQDN := p.2, type := r.type,
                   ttl := r.ttl, target := rr.content }]))
      acc)
    ([] : List RecordConfig)

/-- Correlation key used by the differ: (name, type, target). -/
def rkey (r : RecordConfig) : String × String × String :=
  (r.label, r.type, r.target)

/-- First record of a list with the given correlation key, if any. -/
def findByKey (l : List RecordConfig) (k : String × String × String) :
    Option RecordConfig :=
  l.find? (fun r => decide (rkey r = k))

/-- Modelled from the spec: the external `diff.New(dc).IncrementalDiff`
algorithm.  Keys are (name, type, target); a key only in desired is a
create, a key only in current is a delete, a key in both with differing
non-key field (TTL) is a modify and otherwise unchanged; creates and
modifies follow desired order, deletes follow current order.  Returned in
the source's order (unchanged, create, delete, modify). -/
def incrementalDiff (desired current : List RecordConfig) :
    List Correlation × List Correlation × List Correlation × List Correlation :=
  let create := (desired.filter (fun d => (findByKey current (rkey d)).isNone)).map
    (fun d => { existing := none, desired := some d })
  let del := (current.filter (fun e => (findByKey desired (rkey e)).isNone)).map
    (fun e => { existing := some e, desired := none })
  let paired := desired.filterMap (fun d =>
    (findByKey current (rkey d)).map (fun e => (e, d)))
  let modify := (paired.filter (fun p => decide (p.1.ttl ≠ p.2.ttl))).map
    (fun p => { existing := some p.1, desired := some p.2 })
  let unchanged := (paired.filter (fun p => decide (p.1.ttl = p.2.ttl))).map
    (fun p => { existing := some p.1, desired := some p.2 })
  (unchanged, create, del, modify)

/-- Embedding of the diff-and-build portion of
`PowerDNSProvider.GetDomainCorrections` (the zone fetch is `getZone` and the
flattening is `nativeToDomainConfig`, embedded separately): diff desired
against current, then append one correction per delete, then one per modify,
then one per create, in the differ's output order. -/
def getDomainCorrections (dcName : String)
    (desired current : List RecordConfig) : Option (List Correction) :=
  match incrementalDiff desired current with
  | (_, create, del, modify) => do
    let cs1 ← del.foldlM (fun acc x =>
      (buildCorrection x dcName "delete").map (fun c => acc ++ [c])) []
    let cs2 ← modify.foldlM (fun acc x =>
      (buildCorrection x dcName "modify").map (fun c => acc ++ [c])) cs1
    let cs3 ← create.foldlM (fun acc x =>
      (buildCorrection x dcName "create").map (fun c => acc ++ [c])) cs2
    pure cs3

/-- A record set whose TTL field holds the Go zero value 0 has no `ttl` key
in its serialized form (`omitempty`). -/
theorem ttl_not_serialized (s : PdnsRRSet) (h : s.ttl = 0) :
    "ttl" ∉ (serializeRRSetFields s).map Prod.fst := by
  intro hmem
  simp only [serializeRRSetFields, h, List.map_append, List.mem_append] at hmem
  rcases hmem with ((((h1 | h2) | h3) | h4) | h5) | h6
  · revert h1; split <;> simp
  · revert h2; split <;> simp
  · simp at h3
  · revert h4; split <;> simp
  · revert h5; split <;> simp
  · revert h6; split <;> simp

/-- Concrete desired record used by witnesses. -/
def wRec : RecordConfig :=
  { label := "www", nameFQDN := "www.example.com", type := "A",
    ttl := 300, target := "1.2.3.4" }

/-- Concrete existing record used by witnesses. -/
def wOldRec : RecordConfig :=
  { label := "old", nameFQDN := "old.example.com", type := "A",
    ttl := 120, target := "9.9.9.9" }

/-- Concrete create correlation used by witnesses. -/
def wCreateCorrelation : Correlation :=
  { existing := none, desired := some wRec }

/-- Concrete delete correlation used by witnesses. -/
def wDeleteCorrelation : Correlation :=
  { existing := some wOldRec, desired := none }

/-- C1: for a correlation classified as create or modify, the built
correction's executable action sends a single-element rrsets payload whose
one record set has changetype REPLACE, name equal to the desired record's
FQDN with a trailing dot appended, type and TTL equal to the desired
record's, and exactly one record entry whose content is the desired target
and whose disabled flag is false; create and modify produce the same wire
action. -/
theorem buildCorrection_replace_payload (c : Correlation) (dcName : String)
    (d : RecordConfig) (h : c.desired = some d) :
    buildCorrection c dcName "create" = some
      { msg := c.describe
        call := (dcName,
          [{ name := d.nameFQDN ++ ".", type := d.type, ttl := d.ttl,
             changeType := "REPLACE",
             records := [{ content := d.target, disabled := false, setPr := false }],
             comments := [] }]) }
    ∧ buildCorrection c dcName "modify" = buildCorrection c dcName "create" := by
  constructor
  · simp [buildCorrection, h, RecordConfig.GetLabelFQDN, ChangeTypeReplace]
  · simp [buildCorrection, h]

/-- Witness for C1 at a concrete create correlation. -/
theorem buildCorrection_replace_payload_witness :
    wCreateCorrelation.desired = some wRec
    ∧ (buildCorrection wCreateCorrelation "example.com" "create" = some
      { msg := wCreateCorrelation.describe
        call := ("example.com",
          [{ name := wRec.nameFQDN ++ ".", type := wRec.type, ttl := wRec.ttl,
             changeType := "REPLACE",
             records := [{ content := wRec.target, disabled := false, setPr := false }],
             comments := [] }]) }
      ∧ buildCorrection wCreateCorrelation "example.com" "modify"
        = buildCorrection wCreateCorrelation "example.com" "create") :=
  ⟨rfl, buildCorrection_replace_payload wCreateCorrelation "example.com" wRec rfl⟩

/-- C6: for a correlation classified as delete, the built correction's
executable action sends a payload with changetype DELETE, the existing
record's name with a trailing dot appended and its type, plus one record
entry with the existing target content; and the TTL field is omitted from
the serialized payload (the Go struct tag `omitempty` drops the
never-assigned TTL 0). -/
theorem buildCorrection_delete_payload (c : Correlation) (dcName : String)
    (e : RecordConfig) (h : c.existing = some e) :
    buildCorrection c dcName "delete" = some
      { msg := c.describe
        call := (dcName,
          [{ name := e.nameFQDN ++ ".", type := e.type, ttl := 0,
             changeType := "DELETE",
             records := [{ content := e.target, disabled := false, setPr := false }],
             comments := [] }]) }
    ∧ "ttl" ∉ (serializeRRSetFields
        { name := e.nameFQDN ++ ".", type := e.type, ttl := 0,
          changeType := "DELETE",
          records := [{ content := e.target, disabled := false, setPr := false }],
          comments := [] }).map Prod.fst := by
  constructor
  · simp [buildCorrection, h, RecordConfig.GetLabelFQDN, ChangeTypeDelete]
  · exact ttl_not_serialized _ rfl

/-- Witness for C6 at a concrete delete correlation. -/
theorem buildCorrection_delete_payload_witness :
    wDeleteCorrelation.existing = some wOldRec
    ∧ (buildCorrection wDeleteCorrelation "example.com" "delete" = some
      { msg := wDeleteCorrelation.describe
        call := ("example.com",
          [{ name := wOldRec.nameFQDN ++ ".", type := wOldRec.type, ttl := 0,
             changeType := "DELETE",
             records := [{ content := wOldRec.target, disabled := false, setPr := false }],
             comments := [] }]) }
      ∧ "ttl" ∉ (serializeRRSetFields
          { name := wOldRec.nameFQDN ++ ".", type := wOldRec.type, ttl := 0,
            changeType := "DELETE",
            records := [{ content := wOldRec.target, disabled := false, setPr := false }],
            comments := [] }).map Prod.fst) :=
  ⟨rfl, buildCorrection_delete_payload wDeleteCorrelation "example.com" wOldRec rfl⟩

/-- C10: for any action string other than `"create"` and `"modify"` --
arbitrary strings included -- `buildCorrection` takes the catch-all else
branch and builds the DELETE correction from the existing record; the action
string is never validated and there is no error path for an unrecognized
action. -/
theorem buildCorrection_unvalidated_action (c : Correlation) (dcName act : String)
    (e : RecordConfig) (h1 : act ≠ "create") (h2 : act ≠ "modify")
    (h : c.existing = some e) :
    buildCorrection c dcName act = buildCorrection c dcName "delete"
    ∧ buildCorrection c dcName act = some
      { msg := c.describe
        call := (dcName,
          [{ name := e.nameFQDN ++ ".", type := e.type, ttl := 0,
             changeType := "DELETE",
             records := [{ content := e.target, disabled := false, setPr := false }],
             comments := [] }]) } := by
  constructor
  · simp [buildCorrection, h1, h2]
  · simp [buildCorrection, h1, h2, h, RecordConfig.GetLabelFQDN, ChangeTypeDelete]

/-- Witness for C10 at the arbitrary action string `"frobnicate"`. -/
theorem buildCorrection_unvalidated_action_witness :
    ("frobnicate" ≠ "create") ∧ ("frobnicate" ≠ "modify")
    ∧ wDeleteCorrelation.existing = some wOldRec
    ∧ (buildCorrection wDeleteCorrelation "example.com" "frobnicate"
        = buildCorrection wDeleteCorrelation "example.com" "delete"
      ∧ buildCorrection wDeleteCorrelation "example.com" "frobnicate" = some
        { msg := wDeleteCorrelation.describe
          call := ("example.com",
            [{ name := wOldRec.nameFQDN ++ ".", type := wOldRec.type, ttl := 0,
               changeType := "DELETE",
               records := [{ content := wOldRec.target, disabled := false, setPr := false }],
               comments := [] }]) }) :=
  ⟨by decide, by decide, rfl,
    buildCorrection_unvalidated_action wDeleteCorrelation "example.com" "frobnicate"
      wOldRec (by decide) (by decide) rfl⟩

/-- C9: a built correction's executable action applies the remote mutator to
exactly the one recorded call (the zone name passed at build time and the
payload) and returns the mutator's result unchanged; in particular any
mutator error is propagated without suppression, wrapping or retry. -/
theorem correction_run_once_propagates (c : Correlation) (dcName act : String)
    (corr : Correction) (m : String → List PdnsRRSet → Except String Unit)
    (h : buildCorrection c dcName act = some corr) :
    corr.call.1 = dcName
    ∧ corr.run m = m dcName corr.call.2
    ∧ (∀ e, m dcName corr.call.2 = Except.error e →
        corr.run m = Except.error e) := by
  have hz : corr.call.1 = dcName := by
    by_cases hact : act = "create" ∨ act = "modify"
    · cases hd : c.desired with
      | none => simp [buildCorrection, hact, hd] at h
      | some d =>
        simp only [buildCorrection, hact, if_true, hd] at h
        cases h
        rfl
    · cases he : c.existing with
      | none => simp [buildCorrection, hact, he] at h
      | some e =>
        simp only [buildCorrection, hact, if_false, he] at h
        cases h
        rfl
  refine ⟨hz, ?_, ?_⟩
  · rw [Correction.run, hz]
  · intro e he2
    rw [Correction.run, hz, he2]

/-- Witness for C9 at a concrete correlation and a mutator that always
fails. -/
theorem correction_run_once_propagates_witness :
    (buildCorrection wCreateCorrelation "example.com" "create" = some
      { msg := wCreateCorrelation.describe
        call := ("example.com",
          [{ name := wRec.nameFQDN ++ ".", type := wRec.type, ttl := wRec.ttl,
             changeType := "REPLACE",
             records := [{ content := wRec.target, disabled := false, setPr := false }],
             comments := [] }]) })
    ∧ (let corr : Correction :=
        { msg := wCreateCorrelation.describe
          call := ("example.com",
            [{ name := wRec.nameFQDN ++ ".", type := wRec.type, ttl := wRec.ttl,
               changeType := "REPLACE",
               records := [{ content := wRec.target, disabled := false, setPr := false }],
               comments := [] }]) }
       let m : String → List PdnsRRSet → Except String Unit :=
        fun _ _ => Except.error "boom"
       corr.call.1 = "example.com"
       ∧ corr.run m = m "example.com" corr.call.2
       ∧ (∀ e, m "example.com" corr.call.2 = Except.error e →
           corr.run m = Except.error e)) :=
  ⟨rfl, correction_run_once_propagates wCreateCorrelation "example.com" "create"
    _ _ rfl⟩

/-- C3: the remote mutator `UpdateZoneRRSets` succeeds exactly when the
backend responds 204 No Content; any other status yields an error carrying
the response's status text, and a transport failure is returned as is. -/
theorem updateZoneRRSets_success_iff_204 (zoneId : String)
    (rrSets : List PdnsRRSet) (st : Nat) (txt : String) (b : ZoneBody)
    (e : String) :
    (updateZoneRRSets zoneId rrSets (HttpOutcome.resp st txt b) = Except.ok ()
      ↔ st = 204)
    ∧ (st ≠ 204 → updateZoneRRSets zoneId rrSets (HttpOutcome.resp st txt b)
        = Except.error (updateFailMsg txt))
    ∧ updateZoneRRSets zoneId rrSets (HttpOutcome.netErr e) = Except.error e := by
  refine ⟨?_, ?_, rfl⟩
  · by_cases hst : st = 204 <;> simp [updateZoneRRSets, hst]
  · intro hst
    simp [updateZoneRRSets, hst]

/-- Witness for C3 at status 500. -/
theorem updateZoneRRSets_success_iff_204_witness :
    ((500 : Nat) ≠ 204)
    ∧ ((updateZoneRRSets "example.com" []
        (HttpOutcome.resp 500 "500 Internal Server Error" (ZoneBody.malformed ""))
        = Except.ok () ↔ (500 : Nat) = 204)
      ∧ ((500 : Nat) ≠ 204 → updateZoneRRSets "example.com" []
          (HttpOutcome.resp 500 "500 Internal Server Error" (ZoneBody.malformed ""))
          = Except.error (updateFailMsg "500 Internal Server Error"))
      ∧ updateZoneRRSets "example.com" [] (HttpOutcome.netErr "dial timeout")
          = Except.error "dial timeout") :=
  ⟨by decide, updateZoneRRSets_success_iff_204 "example.com" [] 500
    "500 Internal Server Error" (ZoneBody.malformed "") "dial timeout"⟩

/-- C4: `GetZone` distinguishes three outcomes.  A network failure is an
error; a 200 response with a well-formed body is the only success and
carries the zone; a 404 response yields the specific not-found message
naming the zone; any other status yields the generic transport message
carrying the status text; a malformed 200 body is a decode error.  The
not-found message never coincides with the transport message, so callers
can branch on it. -/
theorem getZone_three_outcomes (zoneId : String) (st : Nat) (txt : String)
    (b : ZoneBody) (e : String) (z : PdnsZone) :
    getZone zoneId (HttpOutcome.netErr e) = Except.error e
    ∧ getZone zoneId (HttpOutcome.resp 200 txt (ZoneBody.wellFormed z)) = Except.ok z
    ∧ getZone zoneId (HttpOutcome.resp 200 txt (ZoneBody.malformed e)) = Except.error e
    ∧ getZone zoneId (HttpOutcome.resp 404 txt b)
        = Except.error (getZoneNotFoundMsg zoneId)
    ∧ (st ≠ 200 → st ≠ 404 →
        getZone zoneId (HttpOutcome.resp st txt b)
          = Except.error (getZoneFailMsg txt))
    ∧ getZoneFailMsg txt ≠ getZoneNotFoundMsg zoneId := by
  refine ⟨rfl, by simp [getZone], by simp [getZone], by simp [getZone], ?_, ?_⟩
  · intro h1 h2
    simp [getZone, h1, h2]
  · intro h
    have h2 := congrArg String.data h
    simp [getZoneFailMsg, getZoneNotFoundMsg, String.data_append] at h2

/-- Witness for C4 at status 500 and a concrete zone. -/
theorem getZone_three_outcomes_witness :
    ((500 : Nat) ≠ 200) ∧ ((500 : Nat) ≠ 404)
    ∧ (getZone "example.com" (HttpOutcome.netErr "dial timeout")
        = Except.error "dial timeout"
      ∧ getZone "example.com"
          (HttpOutcome.resp 200 "500 Internal Server Error"
            (ZoneBody.wellFormed { id := "example.com." }))
          = Except.ok { id := "example.com." }
      ∧ getZone "example.com"
          (HttpOutcome.resp 200 "500 Internal Server Error"
            (ZoneBody.malformed "dial timeout"))
          = Except.error "dial timeout"
      ∧ getZone "example.com"
          (HttpOutcome.resp 404 "500 Internal Server Error" (ZoneBody.malformed "bad json"))
          = Except.error (getZoneNotFoundMsg "example.com")
      ∧ ((500 : Nat) ≠ 200 → (500 : Nat) ≠ 404 →
          getZone "example.com"
            (HttpOutcome.resp 500 "500 Internal Server Error" (ZoneBody.malformed "bad json"))
            = Except.error (getZoneFailMsg "500 Internal Server Error"))
      ∧ getZoneFailMsg "500 Internal Server Error" ≠ getZoneNotFoundMsg "example.com") :=
  ⟨by decide, by decide,
    getZone_three_outcomes "example.com" 500 "500 Internal Server Error"
      (ZoneBody.malformed "bad json") "dial timeout" { id := "example.com." }⟩

/-- C8: for a name that is the zone itself or a strict subdomain of it (a
nonempty label sequence, which in a valid DNS name is never the literal
apex marker, followed by a dot and the zone), relativizing and then
re-absolutizing against the zone gives back exactly the original name. -/
theorem relativize_absolutize_roundtrip (n zone : String)
    (h : n = zone ∨ ∃ l, l ≠ "" ∧ l ≠ "@" ∧ n = l ++ "." ++ zone) :
    ∃ lbl, relativize n zone = some lbl ∧ absolutize lbl zone = n := by
  rcases h with h | ⟨l, hne, hat, rfl⟩
  · subst h
    exact ⟨"@", by simp [relativize], by simp [absolutize]⟩
  · have hlpos : 0 < l.data.length := by
      cases hd : l.data with
      | nil => exact absurd (String.ext (by rw [hd])) hne
      | cons a as => simp
    have hnz : l ++ "." ++ zone ≠ zone := by
      intro hz
      have h2 := congrArg (fun s => s.data.length) hz
      simp [String.data_append] at h2
      omega
    have hdata : (l ++ "." ++ zone).data = l.data ++ ('.' :: zone.data) := by
      simp [String.data_append]
    have hsufdata : ("." ++ zone).data = '.' :: zone.data := by
      simp [String.data_append]
    have hsuf : ("." ++ zone).data.isSuffixOf ((l ++ "." ++ zone).data) = true := by
      rw [hdata, hsufdata]
      simp [List.isSuffixOf_iff_suffix]
    refine ⟨l, ?_, ?_⟩
    · rw [relativize, if_neg hnz, if_pos (by rw [hsuf])]
      congr 1
      apply String.ext
      rw [hdata, hsufdata]
      simp [List.length_append]
    · rw [absolutize, if_neg hat]

/-- Witness for C8 at a strict subdomain of a concrete zone. -/
theorem relativize_absolutize_roundtrip_witness :
    ("www.example.com" = "example.com"
      ∨ ∃ l, l ≠ "" ∧ l ≠ "@" ∧ "www.example.com" = l ++ "." ++ "example.com")
    ∧ ∃ lbl, relativize "www.example.com" "example.com" = some lbl
        ∧ absolutize lbl "example.com" = "www.example.com" :=
  ⟨Or.inr ⟨"www", by decide, by decide, by decide⟩,
    relativize_absolutize_roundtrip "www.example.com" "example.com"
      (Or.inr ⟨"www", by decide, by decide, by decide⟩)⟩

/-- Accumulator lemma for the correction-building loops: when the builder
succeeds on every element, the fold appends exactly one correction per
element, in order. -/
theorem foldlM_option_append {α β : Type} (l : List α) (f : α → Option β)
    (g : α → β) (hf : ∀ x ∈ l, f x = some (g x)) :
    ∀ a : List β,
      l.foldlM (fun acc x => (f x).map (fun c => acc ++ [c])) a
        = some (a ++ l.map g) := by
  induction l with
  | nil => intro a; simp
  | cons x xs ih =>
    intro a
    have hx : f x = some (g x) := hf x (by simp)
    have ih2 := ih (fun y hy => hf y (List.mem_cons_of_mem x hy)) (a ++ [g x])
    simp only [List.foldlM_cons, hx, Option.map_some']
    simp [ih2]

/-- The correction the builder produces for a delete correlation, expressed
as a total function of the correlation. -/
def deleteCorrectionOf (dcName : String) (x : Correlation) : Correction :=
  { msg := x.describe
    call := (dcName,
      [{ changeType := ChangeTypeDelete
         name := (x.existing.getD {}).GetLabelFQDN ++ "."
         type := (x.existing.getD {}).type
         records := [{ content := (x.existing.getD {}).target }] }]) }

/-- The correction the builder produces for a create or modify correlation,
expressed as a total function of the correlation. -/
def replaceCorrectionOf (dcName : String) (x : Correlation) : Correction :=
  { msg := x.describe
    call := (dcName,
      [{ changeType := ChangeTypeReplace
         name := (x.desired.getD {}).GetLabelFQDN ++ "."
         type := (x.desired.getD {}).type
         records := [{ content := (x.desired.getD {}).target, disabled := false }]
         ttl := (x.desired.getD {}).ttl }]) }

/-- On a correlation that carries an existing record, building with action
`"delete"` yields the delete-shaped correction. -/
theorem build_delete_of_shape (x : Correlation) (dcName : String)
    (h : ∃ e, x.existing = some e) :
    buildCorrection x dcName "delete" = some (deleteCorrectionOf dcName x) := by
  rcases h with ⟨e, he⟩
  simp [buildCorrection, he, deleteCorrectionOf]

/-- On a correlation that carries a desired record, building with action
`"create"` or `"modify"` yields the replace-shaped correction. -/
theorem build_replace_of_shape (x : Correlation) (dcName act : String)
    (hact : act = "create" ∨ act = "modify") (h : ∃ d, x.desired = some d) :
    buildCorrection x dcName act = some (replaceCorrectionOf dcName x) := by
  rcases h with ⟨d, hd⟩
  simp [buildCorrection, hact, hd, replaceCorrectionOf]

/-- C2: the corrections returned for a desired/current pair are exactly one
per delete correlation, then one per modify correlation, then one per create
correlation, in the differ's output order, and none for unchanged
correlations. -/
theorem getDomainCorrections_grouped_order (dcName : String)
    (desired current : List RecordConfig)
    (u cre del mo : List Correlation)
    (h : incrementalDiff desired current = (u, cre, del, mo)) :
    getDomainCorrections dcName desired current = some
      (del.map (deleteCorrectionOf dcName)
        ++ mo.map (replaceCorrectionOf dcName)
        ++ cre.map (replaceCorrectionOf dcName)) := by
  have hdel : ∀ x ∈ del, ∃ e, x.existing = some e := by
    intro x hx
    have hproj := congrArg (fun t :
      List Correlation × List Correlation × List Correlation × List Correlation =>
      t.2.2.1) h
    simp only at hproj
    rw [← hproj] at hx
    simp only [incrementalDiff, List.mem_map] at hx
    rcases hx with ⟨e, -, rfl⟩
    exact ⟨e, rfl⟩
  have hmo : ∀ x ∈ mo, ∃ d, x.desired = some d := by
    intro x hx
    have hproj := congrArg (fun t :
      List Correlation × List Correlation × List Correlation × List Correlation =>
      t.2.2.2) h
    simp only at hproj
    rw [← hproj] at hx
    simp only [incrementalDiff, List.mem_map] at hx
    rcases hx with ⟨p, -, rfl⟩
    exact ⟨p.2, rfl⟩
  have hcre : ∀ x ∈ cre, ∃ d, x.desired = some d := by
    intro x hx
    have hproj := congrArg (fun t :
      List Correlation × List Correlation × List Correlation × List Correlation =>
      t.2.1) h
    simp only at hproj
    rw [← hproj] at hx
    simp only [incrementalDiff, List.mem_map] at hx
    rcases hx with ⟨d, -, rfl⟩
    exact ⟨d, rfl⟩
  have h1 := foldlM_option_append del (fun x => buildCorrection x dcName "delete")
    (deleteCorrectionOf dcName)
    (fun x hx => build_delete_of_shape x dcName (hdel x hx)) []
  have h2 := foldlM_option_append mo (fun x => buildCorrection x dcName "modify")
    (replaceCorrectionOf dcName)
    (fun x hx => build_replace_of_shape x dcName "modify" (Or.inr rfl) (hmo x hx))
    (del.map (deleteCorrectionOf dcName))
  have h3 := foldlM_option_append cre (fun x => buildCorrection x dcName "create")
    (replaceCorrectionOf dcName)
    (fun x hx => build_replace_of_shape x dcName "create" (Or.inl rfl) (hcre x hx))
    (del.map (deleteCorrectionOf dcName) ++ mo.map (replaceCorrectionOf dcName))
  unfold getDomainCorrections
  rw [h]
  simp only [List.nil_append] at h1
  simp [h1, h2, h3, List.append_assoc]

/-- Witness for C2 at a one-create, one-delete concrete input. -/
theorem getDomainCorrections_grouped_order_witness :
    incrementalDiff [wRec] [wOldRec] =
      ([], [{ existing := none, desired := some wRec }],
        [{ existing := some wOldRec, desired := none }], [])
    ∧ getDomainCorrections "example.com" [wRec] [wOldRec] = some
      ([{ existing := some wOldRec, desired := none }].map
          (deleteCorrectionOf "example.com")
        ++ ([] : List Correlation).map (replaceCorrectionOf "example.com")
        ++ [{ existing := none, desired := some wRec }].map
          (replaceCorrectionOf "example.com")) :=
  ⟨by decide,
    getDomainCorrections_grouped_order "example.com" [wRec] [wOldRec]
      [] [{ existing := none, desired := some wRec }]
      [{ existing := some wOldRec, desired := none }] [] (by decide)⟩

/-- Inner-loop lemma for the flattening: when the set's name decomposes
against the zone, the fold over the set's records appends one canonical
record per native record, in order. -/
theorem native_inner_fold (nm zone t : String) (ttlv : Nat) (p : String × String)
    (hp : setLabelFromFQDN nm zone = some p) (l : List PdnsRecord) :
    ∀ acc : List RecordConfig,
      l.foldlM (fun acc2 rr => (setLabelFromFQDN nm zone).map (fun q =>
        acc2 ++ [{ label := q.1, nameFQDN := q.2, type := t, ttl := ttlv,
                   target := rr.content }])) acc
      = some (acc ++ l.map (fun rr =>
          { label := p.1, nameFQDN := p.2, type := t, ttl := ttlv,
            target := rr.content })) := by
  induction l with
  | nil => intro acc; simp
  | cons rr rs ih =>
    intro acc
    simp only [hp, Option.map_some'] at ih ⊢
    simp only [List.foldlM_cons]
    simp [ih, List.append_assoc]

/-- Outer-loop lemma for the flattening, generalized over the accumulator. -/
theorem native_outer_fold (zone : String) (native : List PdnsRRSet)
    (h : ∀ r ∈ native, (setLabelFromFQDN r.name zone).isSome) :
    ∀ acc : List RecordConfig,
      native.foldlM (fun acc r =>
        r.records.foldlM (fun acc2 rr =>
          (setLabelFromFQDN r.name zone).map (fun p =>
            acc2 ++ [{ label := p.1, nameFQDN := p.2, type := r.type,
                       ttl := r.ttl, target := rr.content }])) acc) acc
      = some (acc ++ native.flatMap (fun r => r.records.map (fun rr =>
          { label := ((setLabelFromFQDN r.name zone).getD ("", "")).1,
            nameFQDN := ((setLabelFromFQDN r.name zone).getD ("", "")).2,
            type := r.type, ttl := r.ttl, target := rr.content }))) := by
  induction native with
  | nil => intro acc; simp
  | cons r rest ih =>
    intro acc
    have hr := h r (by simp)
    rcases Option.isSome_iff_exists.mp hr with ⟨p, hp⟩
    have hinner := native_inner_fold r.name zone r.type r.ttl p hp r.records acc
    have ih2 := ih (fun y hy => h y (List.mem_cons_of_mem r hy))
    simp only [List.foldlM_cons, hinner]
    simp [ih2, List.flatMap_cons, hp, List.append_assoc]

/-- C7: flattening a native zone representation produces one canonical
record per native record entry, preserving the record-set traversal order
and the within-set record order, with the set's (relativized) name, type and
TTL duplicated onto every record produced from that set; this requires every
set name to decompose against the zone. -/
theorem nativeToDomainConfig_flatten (native : List PdnsRRSet) (zone : String)
    (h : ∀ r ∈ native, (setLabelFromFQDN r.name zone).isSome) :
    nativeToDomainConfig native zone = some (native.flatMap (fun r =>
      r.records.map (fun rr =>
        { label := ((setLabelFromFQDN r.name zone).getD ("", "")).1,
          nameFQDN := ((setLabelFromFQDN r.name zone).getD ("", "")).2,
          type := r.type, ttl := r.ttl, target := rr.content }))) := by
  have hout := native_outer_fold zone native h []
  simpa [nativeToDomainConfig] using hout

/-- Concrete native zone content used by the C7 witness. -/
def wNative : List PdnsRRSet :=
  [ { name := "example.com.", type := "NS", ttl := 3600,
      records := [{ content := "ns1.example.net." }, { content := "ns2.example.net." }] },
    { name := "www.example.com.", type := "A", ttl := 300,
      records := [{ content := "1.2.3.4" }] } ]

/-- Witness for C7 at a concrete two-set native zone. -/
theorem nativeToDomainConfig_flatten_witness :
    (∀ r ∈ wNative, (setLabelFromFQDN r.name "example.com").isSome)
    ∧ nativeToDomainConfig wNative "example.com" = some (wNative.flatMap (fun r =>
        r.records.map (fun rr =>
          { label := ((setLabelFromFQDN r.name "example.com").getD ("", "")).1,
            nameFQDN := ((setLabelFromFQDN r.name "example.com").getD ("", "")).2,
            type := r.type, ttl := r.ttl, target := rr.content }))) :=
  ⟨by decide, nativeToDomainConfig_flatten wNative "example.com" (by decide)⟩

/-- Desired records sharing one (name, type) pair, used as the failing input
for the record-set grouping requirement. -/
def twoTargetsDesired : List RecordConfig :=
  [ { label := "www", nameFQDN := "www.example.com", type := "A",
      ttl := 300, target := "1.1.1.1" },
    { label := "www", nameFQDN := "www.example.com", type := "A",
      ttl := 300, target := "2.2.2.2" } ]

/-- C5 evidence: on two desired targets sharing the same (name, type), the
correction builder constructs two separate single-record REPLACE corrections
for the same record set, instead of one grouped correction carrying both
target records; each REPLACE would clobber the other's content at the
backend. -/
theorem same_key_desired_not_grouped :
    getDomainCorrections "example.com" twoTargetsDesired [] = some
      [ { msg := "CREATE A www.example.com 1.1.1.1"
          call := ("example.com",
            [{ name := "www.example.com.", type := "A", ttl := 300,
               changeType := "REPLACE",
               records := [{ content := "1.1.1.1", disabled := false, setPr := false }],
               comments := [] }]) },
        { msg := "CREATE A www.example.com 2.2.2.2"
          call := ("example.com",
            [{ name := "www.example.com.", type := "A", ttl := 300,
               changeType := "REPLACE",
               records := [{ content := "2.2.2.2", disabled := false, setPr := false }],
               comments := [] }]) } ] := by decide
